import Mathlib

set_option maxRecDepth 40000

/-!
Verification of the checkpoint persistence mechanism of the
PyTorch-Deep-Learning notebooks (Part 6 - Saving and Loading Models).

The notebook builds a checkpoint dictionary with the keys `input_size`,
`output_size`, `hidden_layers` and `state_dict`, persists it with a
generic object serializer, and reconstructs a model with `load_checkpoint`:
first `fc_model.Network(input_size, output_size, hidden_layers)`, then
`model.load_state_dict` of the stored state dict.

The model-construction collaborator (`fc_model.Network`), the strict
parameter loader (`load_state_dict`) and the byte-level container
(`torch.save` / `torch.load`) are not part of the notebook sources, so they
are modelled from the specification: an architecture descriptor, an ordered
state dict of shaped numeric arrays, a versioned length-prefixed byte
format, and the error taxonomy `ShapeMismatch` / `IncompleteBundle` /
`CorruptRecord` / `VersionMismatch`.  Parameter scalars are idealized as
integers: the codec stores numbers and never computes with them.
-/

deriving instance DecidableEq for Except

namespace Checkpoint

/-- Modelled from the spec: a numeric array of the parameter-loading
collaborator, given by its shape (2-D for weights, 1-D for biases) and its
flat payload of scalars. -/
structure Tensor where
  shape : List Nat
  data : List Int
deriving DecidableEq

/-- Tensor whose declared dimensions agree with its embedded array size. -/
def Tensor.consistent (t : Tensor) : Bool :=
  t.data.length == t.shape.prod

/-- Tensor of the given shape filled with zeros, standing for freshly
allocated parameter storage. -/
def Tensor.zeros (shape : List Nat) : Tensor :=
  ⟨shape, List.replicate shape.prod 0⟩

/-- State dict: ordered mapping from layer-parameter key to numeric array,
as produced by `model.state_dict()`. -/
abbrev StateDict : Type := List (String × Tensor)

/-- Architecture descriptor: the shape metadata stored in the checkpoint
dictionary (`input_size`, `output_size`, `hidden_layers`). -/
structure ArchitectureDescriptor where
  input_size : Nat
  output_size : Nat
  hidden_layers : List Nat
deriving DecidableEq

/-- Key of the weight array of hidden layer `i`, as printed by the
notebook: `hidden_layers.<i>.weight`. -/
def weightKey (i : Nat) : String :=
  "hidden_layers." ++ toString i ++ ".weight"

/-- Key of the bias array of hidden layer `i`. -/
def biasKey (i : Nat) : String :=
  "hidden_layers." ++ toString i ++ ".bias"

/-- In/out feature pairs of the hidden linear layers, front to back:
`Network(784, 10, [512, 256, 128])` has hidden layers
`784→512`, `512→256`, `256→128`. -/
def hiddenDims (d : ArchitectureDescriptor) : List (Nat × Nat) :=
  (d.input_size :: d.hidden_layers).zip d.hidden_layers

/-- In features of the output linear layer: the last hidden width, or the
input size when there is no hidden layer. -/
def outputInFeatures (d : ArchitectureDescriptor) : Nat :=
  d.hidden_layers.getLastD d.input_size

/-- Keys and shapes of the parameter arrays implied by a descriptor, in
state-dict order: `hidden_layers.i.weight` (shape `[out, in]`),
`hidden_layers.i.bias` (shape `[out]`), then `output.weight` and
`output.bias`. -/
def expectedShapes (d : ArchitectureDescriptor) : List (String × List Nat) :=
  ((hiddenDims d).enum.flatMap fun p =>
    [(weightKey p.1, [p.2.2, p.2.1]), (biasKey p.1, [p.2.2])])
  ++ [("output.weight", [d.output_size, outputInFeatures d]),
      ("output.bias", [d.output_size])]

/-- Lookup of a key in a state dict (first entry with that key). -/
def findTensor (sd : StateDict) (k : String) : Option Tensor :=
  (sd.find? fun e => e.1 == k).map Prod.snd

/-- Valid `(descriptor, parameters)` pair of the data model: the bundle
holds exactly the arrays implied by the descriptor, in construction order,
with the implied shapes, each array internally consistent, and every
implied key looks up to an array of the implied shape. -/
def validPair (d : ArchitectureDescriptor) (sd : StateDict) : Bool :=
  (sd.map Prod.fst == (expectedShapes d).map Prod.fst) &&
  ((sd.zip (expectedShapes d)).all fun e =>
    e.1.2.shape == e.2.2 && e.1.2.consistent) &&
  ((expectedShapes d).all fun ks =>
    match findTensor sd ks.1 with
    | some t => t.shape == ks.2
    | none => false)

/-- Error taxonomy of the codec and the parameter loader. -/
inductive CodecError where
  | ShapeMismatch (layer : String) (expected : List Nat) (actual : List Nat)
  | IncompleteBundle (layer : String)
  | CorruptRecord
  | VersionMismatch
deriving DecidableEq

/-- Base-256 digits of `n`, little endian, driven by structural fuel so
that the kernel can evaluate it. -/
def natDigits : Nat → Nat → List Nat
  | 0, _ => []
  | _ + 1, 0 => []
  | fuel + 1, n + 1 => (n + 1) % 256 :: natDigits fuel ((n + 1) / 256)

/-- Value of a little-endian base-256 digit list. -/
def unDigits : List Nat → Nat
  | [] => 0
  | b :: bs => b + 256 * unDigits bs

/-- Encoding of a natural number: digit count, then digits. -/
def encNat (n : Nat) : List Nat :=
  (natDigits n n).length :: natDigits n n

/-- Decoder of a natural number; consumes the digit count and that many
digit bytes, and fails on a short stream. -/
def decNat : List Nat → Option (Nat × List Nat)
  | [] => none
  | l :: r =>
    if l ≤ r.length then some (unDigits (r.take l), r.drop l) else none

/-- Encoding of an integer: a sign byte, then the magnitude. -/
def encInt (z : Int) : List Nat :=
  (if z < 0 then 1 else 0) :: encNat z.natAbs

/-- Decoder of an integer. -/
def decInt : List Nat → Option (Int × List Nat)
  | [] => none
  | s :: r =>
    match decNat r with
    | none => none
    | some (n, r') =>
      if s == 0 then some ((n : Int), r')
      else if s == 1 then some (-(n : Int), r')
      else none

/-- Decoder of a fixed count of values with a given element decoder. -/
def decCount {α : Type} (dec : List Nat → Option (α × List Nat)) :
    Nat → List Nat → Option (List α × List Nat)
  | 0, bs => some ([], bs)
  | n + 1, bs =>
    match dec bs with
    | none => none
    | some (a, r) =>
      match decCount dec n r with
      | none => none
      | some (as, r') => some (a :: as, r')

/-- Encoding of a list: element count, then the encoded elements. -/
def encList {α : Type} (enc : α → List Nat) (xs : List α) : List Nat :=
  encNat xs.length ++ xs.flatMap enc

/-- Decoder of a list: element count, then that many elements. -/
def decList {α : Type} (dec : List Nat → Option (α × List Nat))
    (bs : List Nat) : Option (List α × List Nat) :=
  match decNat bs with
  | none => none
  | some (n, r) => decCount dec n r

/-- Encoding of a string as the code points of its characters. -/
def encString (s : String) : List Nat :=
  encList encNat (s.data.map Char.toNat)

/-- Decoder of a string. -/
def decString (bs : List Nat) : Option (String × List Nat) :=
  match decList decNat bs with
  | none => none
  | some (ns, r) => some (String.mk (ns.map Char.ofNat), r)

/-- Encoding of a tensor: its shape, then its flat data. -/
def encTensor (t : Tensor) : List Nat :=
  encList encNat t.shape ++ encList encInt t.data

/-- Decoder of a tensor; rejects a record whose declared dimensions are
inconsistent with the embedded array size. -/
def decTensor (bs : List Nat) : Option (Tensor × List Nat) :=
  match decList decNat bs with
  | none => none
  | some (sh, r) =>
    match decList decInt r with
    | none => none
    | some (da, r') =>
      if da.length == sh.prod then some (⟨sh, da⟩, r') else none

/-- Encoding of one state-dict entry: key, then tensor. -/
def encEntry (e : String × Tensor) : List Nat :=
  encString e.1 ++ encTensor e.2

/-- Decoder of one state-dict entry. -/
def decEntry (bs : List Nat) : Option ((String × Tensor) × List Nat) :=
  match decString bs with
  | none => none
  | some (k, r) =>
    match decTensor r with
    | none => none
    | some (t, r') => some ((k, t), r')

/-- Value of one field of the persisted top-level mapping: an integer, a
sequence of integers, or a state dict. -/
inductive CValue where
  | intVal (n : Nat)
  | listVal (l : List Nat)
  | dictVal (sd : List (String × Tensor))
deriving DecidableEq

/-- Encoding of a record value, tagged by kind. -/
def encCValue : CValue → List Nat
  | .intVal n => 0 :: encNat n
  | .listVal l => 1 :: encList encNat l
  | .dictVal sd => 2 :: encList encEntry sd

/-- Decoder of a record value. -/
def decCValue : List Nat → Option (CValue × List Nat)
  | [] => none
  | t :: r =>
    if t == 0 then (decNat r).map fun p => (.intVal p.1, p.2)
    else if t == 1 then (decList decNat r).map fun p => (.listVal p.1, p.2)
    else if t == 2 then (decList decEntry r).map fun p => (.dictVal p.1, p.2)
    else none

/-- Encoding of one top-level record field: key, then value. -/
def encField (e : String × CValue) : List Nat :=
  encString e.1 ++ encCValue e.2

/-- Decoder of one top-level record field. -/
def decField (bs : List Nat) : Option ((String × CValue) × List Nat) :=
  match decString bs with
  | none => none
  | some (k, r) =>
    match decCValue r with
    | none => none
    | some (v, r') => some ((k, v), r')

/-- Encoding of the top-level mapping as a list of fields. -/
def encRecord (r : List (String × CValue)) : List Nat :=
  encList encField r

/-- Decoder of the top-level mapping. -/
def decRecord (bs : List Nat) : Option (List (String × CValue) × List Nat) :=
  decList decField bs

/-- Checkpoint record built by the notebook cell: a mapping with the keys
`input_size`, `output_size`, `hidden_layers` and `state_dict`. -/
def checkpointRecord (d : ArchitectureDescriptor) (sd : StateDict) :
    List (String × CValue) :=
  [("input_size", .intVal d.input_size),
   ("output_size", .intVal d.output_size),
   ("hidden_layers", .listVal d.hidden_layers),
   ("state_dict", .dictVal sd)]

/-- Format version declared by every serialized record. -/
def formatVersion : Nat := 1

/-- First implied key missing from the bundle, if any. -/
def missingKey (d : ArchitectureDescriptor) (sd : StateDict) : Option String :=
  (expectedShapes d).findSome? fun ks =>
    if (findTensor sd ks.1).isNone then some ks.1 else none

/-- First shape disagreement between the bundle and the shapes implied by
the descriptor, if any. -/
def shapeProblem (d : ArchitectureDescriptor) (sd : StateDict) :
    Option CodecError :=
  (expectedShapes d).findSome? fun ks =>
    match findTensor sd ks.1 with
    | some t => if t.shape == ks.2 then none else
        some (.ShapeMismatch ks.1 ks.2 t.shape)
    | none => none

/-- Modelled from the spec: `serialize(descriptor, parameters) -> bytes`.
Validates completeness and shapes against the descriptor, then persists
the checkpoint record behind a format version and a declared payload
length, as the external `torch.save` container does. -/
def serialize (d : ArchitectureDescriptor) (sd : StateDict) :
    Except CodecError (List Nat) :=
  match missingKey d sd with
  | some k => .error (.IncompleteBundle k)
  | none =>
    match shapeProblem d sd with
    | some e => .error e
    | none =>
      let payload := encRecord (checkpointRecord d sd)
      .ok (formatVersion :: encNat payload.length ++ payload)

/-- Extraction of the descriptor and bundle from a decoded top-level
mapping; rejects any other key set, key order or value kinds. -/
def extractRecord : List (String × CValue) →
    Option (ArchitectureDescriptor × StateDict)
  | [(k1, .intVal i), (k2, .intVal o), (k3, .listVal hs), (k4, .dictVal sd)] =>
    if k1 == "input_size" && k2 == "output_size" &&
       k3 == "hidden_layers" && k4 == "state_dict"
    then some (⟨i, o, hs⟩, sd) else none
  | _ => none

/-- Well-formedness of a decoded bundle against its decoded descriptor:
exactly the implied keys, in order, with the implied shapes. -/
def bundleOk (d : ArchitectureDescriptor) (sd : StateDict) : Bool :=
  (sd.map Prod.fst == (expectedShapes d).map Prod.fst) &&
  ((sd.zip (expectedShapes d)).all fun e => e.1.2.shape == e.2.2)

/-- Modelled from the spec: `deserialize(bytes) -> (descriptor, parameters)`.
Reads the declared format version, the declared payload length, and the
record; fails with `VersionMismatch` on an unsupported version and with
`CorruptRecord` on truncated input, leftover bytes, or a record that is not
a well-formed descriptor+bundle pair. -/
def deserialize (bs : List Nat) :
    Except CodecError (ArchitectureDescriptor × StateDict) :=
  match bs with
  | [] => .error .CorruptRecord
  | v :: r =>
    if v ≠ formatVersion then .error .VersionMismatch
    else
      match decNat r with
      | none => .error .CorruptRecord
      | some (n, payload) =>
        if payload.length ≠ n then .error .CorruptRecord
        else
          match decRecord payload with
          | none => .error .CorruptRecord
          | some (fields, leftover) =>
            if leftover ≠ [] then .error .CorruptRecord
            else
              match extractRecord fields with
              | none => .error .CorruptRecord
              | some (d, sd) =>
                if bundleOk d sd then .ok (d, sd) else .error .CorruptRecord

/-- Model handle: architecture fields together with the allocated,
enumerable, ordered parameter storage. -/
structure Network where
  input_size : Nat
  output_size : Nat
  hidden_layers : List Nat
  params : List (String × Tensor)
deriving DecidableEq

/-- Modelled from the spec: `instantiate(descriptor) -> model_handle`, the
model-construction collaborator `fc_model.Network(input_size, output_size,
hidden_layers)`; uses only the three descriptor fields and allocates fresh
zero-filled parameter storage of the implied shapes. -/
def instantiate (d : ArchitectureDescriptor) : Network :=
  ⟨d.input_size, d.output_size, d.hidden_layers,
   (expectedShapes d).map fun ks => (ks.1, Tensor.zeros ks.2)⟩

/-- First problem a strict parameter load runs into: a model parameter
missing from the bundle, or a shape disagreement. -/
def findMismatch : List (String × Tensor) → StateDict → Option CodecError
  | [], _ => none
  | (k, t) :: rest, sd =>
    match findTensor sd k with
    | none => some (.IncompleteBundle k)
    | some u =>
      if u.shape == t.shape then findMismatch rest sd
      else some (.ShapeMismatch k t.shape u.shape)

/-- Modelled from the spec: `apply_parameters(model_handle, parameters)`,
the strict `model.load_state_dict` contract.  Checks every allocated
parameter against the bundle first; only when every shape agrees is the
storage overwritten, so a failed call leaves the model as it was. -/
def apply_parameters (m : Network) (sd : StateDict) :
    Except CodecError Unit × Network :=
  match findMismatch m.params sd with
  | some e => (.error e, m)
  | none =>
    (.ok (),
     { m with params := m.params.map fun kt =>
        (kt.1, (findTensor sd kt.1).getD kt.2) })

/-- Checkpoint loader of the notebook: read the record, rebuild the model
from the three descriptor fields, then load the state dict into it. -/
def load_checkpoint (file : List Nat) : Except CodecError Network :=
  match deserialize file with
  | .error e => .error e
  | .ok (d, sd) =>
    match apply_parameters (instantiate d) sd with
    | (.error e, _) => .error e
    | (.ok _, m) => .ok m

/-- Caller-visible environment of the notebook session: a file store and
the global `model` variable the cells reassign. -/
structure Env where
  files : List (String × List Nat)
  model : Option Network

/-- Contents of a file of the environment. -/
def readStoredFile (env : Env) (fp : String) : Option (List Nat) :=
  (env.files.find? fun e => e.1 == fp).map Prod.snd

/-- Checkpoint loader run against an environment: reads the named file and
returns the reconstructed model together with the (untouched) environment. -/
def load_checkpoint_env (env : Env) (fp : String) :
    Except CodecError Network × Env :=
  match readStoredFile env fp with
  | none => (.error .CorruptRecord, env)
  | some bs => (load_checkpoint bs, env)

/-- Record values whose embedded tensors are internally consistent. -/
def CValue.wfVal : CValue → Bool
  | .dictVal sd => sd.all fun e => e.2.consistent
  | _ => true

/-- Bundle with every entry of one key removed. -/
def removeKey (sd : StateDict) (k : String) : StateDict :=
  sd.filter fun e => e.1 != k

/-! ### Concrete witness inputs -/

/-- Concrete descriptor with one hidden layer. -/
def dEx : ArchitectureDescriptor := ⟨2, 1, [2]⟩

/-- Concrete valid bundle for `dEx`. -/
def sdEx : StateDict :=
  [("hidden_layers.0.weight", ⟨[2, 2], [1, 2, 3, 4]⟩),
   ("hidden_layers.0.bias", ⟨[2], [5, 6]⟩),
   ("output.weight", ⟨[1, 2], [7, 8]⟩),
   ("output.bias", ⟨[1], [9]⟩)]

/-- Bytes `serialize` produces on `(dEx, sdEx)`. -/
def bsEx : List Nat := (serialize dEx sdEx).toOption.getD []

/-- Bundle shaped for a wider hidden layer, clashing with `dEx`. -/
def sdClash : StateDict :=
  [("hidden_layers.0.weight", ⟨[3, 2], [1, 2, 3, 4, 5, 6]⟩),
   ("hidden_layers.0.bias", ⟨[3], [5, 6, 7]⟩),
   ("output.weight", ⟨[1, 3], [7, 8, 9]⟩),
   ("output.bias", ⟨[1], [9]⟩)]

/-- Concrete valid bundle for the zero-hidden-layer descriptor `⟨3, 2, []⟩`. -/
def sdEmp : StateDict :=
  [("output.weight", ⟨[2, 3], [1, 2, 3, 4, 5, 6]⟩),
   ("output.bias", ⟨[2], [7, 8]⟩)]

/-- Environment holding the serialized checkpoint. -/
def envEx : Env := ⟨[("checkpoint.pth", bsEx)], none⟩

/-- Different environment holding the same bytes under the same name. -/
def envEx2 : Env :=
  ⟨[("checkpoint.pth", bsEx), ("other.pth", [])],
   some (instantiate ⟨3, 2, []⟩)⟩

/-! ### Round-trip lemmas of the byte codec -/

/-- Digit decomposition driven by enough fuel recovers its value. -/
theorem unDigits_natDigits (fuel : Nat) :
    ∀ n, n ≤ fuel → unDigits (natDigits fuel n) = n := by
  induction fuel with
  | zero =>
    intro n h
    have hn : n = 0 := by omega
    subst hn
    simp [natDigits, unDigits]
  | succ f ih =>
    intro n h
    match n with
    | 0 => simp [natDigits, unDigits]
    | m + 1 =>
      have hd : (m + 1) / 256 ≤ f := by omega
      have hrec := ih ((m + 1) / 256) hd
      simp only [natDigits, unDigits, hrec]
      omega

/-- Decoding a natural number encoded at the front of a stream recovers it
and the rest of the stream. -/
theorem decNat_encNat (n : Nat) (r : List Nat) :
    decNat (encNat n ++ r) = some (n, r) := by
  show decNat ((natDigits n n).length :: (natDigits n n ++ r)) = some (n, r)
  simp [decNat, List.take_left, List.drop_left, unDigits_natDigits n n le_rfl]

/-- Decoding an integer encoded at the front of a stream recovers it. -/
theorem decInt_encInt (z : Int) (r : List Nat) :
    decInt (encInt z ++ r) = some (z, r) := by
  by_cases hz : z < 0
  · rw [encInt, if_pos hz]
    simp only [List.cons_append, decInt, decNat_encNat]
    have hz' : -(z.natAbs : Int) = z := by omega
    simp [hz']
    rw [abs_of_neg hz]
    exact neg_neg z
  · rw [encInt, if_neg hz]
    simp only [List.cons_append, decInt, decNat_encNat]
    have hz' : (z.natAbs : Int) = z := by omega
    simp [hz']

/-- Decoding a fixed count of elements from their concatenated encodings
recovers them, given an element-level round trip. -/
theorem decCount_flatMap {α : Type} (dec : List Nat → Option (α × List Nat))
    (enc : α → List Nat) (xs : List α)
    (H : ∀ a ∈ xs, ∀ r, dec (enc a ++ r) = some (a, r)) :
    ∀ r, decCount dec xs.length (xs.flatMap enc ++ r) = some (xs, r) := by
  induction xs with
  | nil => intro r; simp [decCount]
  | cons a as ih =>
    intro r
    have h1 := H a (by simp) (as.flatMap enc ++ r)
    have h2 := ih (fun b hb r' => H b (by simp [hb]) r') r
    simp only [List.length_cons, List.flatMap_cons, List.append_assoc, decCount, h1, h2]

/-- List-level round trip of the length-prefixed list codec. -/
theorem decList_encList {α : Type} (dec : List Nat → Option (α × List Nat))
    (enc : α → List Nat) (xs : List α)
    (H : ∀ a ∈ xs, ∀ r, dec (enc a ++ r) = some (a, r)) (r : List Nat) :
    decList dec (encList enc xs ++ r) = some (xs, r) := by
  simp only [encList, List.append_assoc, decList, decNat_encNat,
    decCount_flatMap dec enc xs H r]

/-- String-level round trip. -/
theorem decString_encString (s : String) (r : List Nat) :
    decString (encString s ++ r) = some (s, r) := by
  have H : ∀ a ∈ s.data.map Char.toNat, ∀ r', decNat (encNat a ++ r') = some (a, r') :=
    fun a _ r' => decNat_encNat a r'
  simp only [encString, decString, decList_encList decNat encNat _ H r]
  have hmap : (s.data.map Char.toNat).map Char.ofNat = s.data := by
    rw [List.map_map]
    simp [Function.comp_def, Char.ofNat_toNat]
  rw [hmap]

/-- Tensor-level round trip, for a tensor whose declared dimensions agree
with its data. -/
theorem decTensor_encTensor (t : Tensor) (h : t.consistent = true) (r : List Nat) :
    decTensor (encTensor t ++ r) = some (t, r) := by
  have h1 := decList_encList decNat encNat t.shape
    (fun a _ r' => decNat_encNat a r') (encList encInt t.data ++ r)
  have h2 := decList_encList decInt encInt t.data
    (fun a _ r' => decInt_encInt a r') r
  simp only [Tensor.consistent] at h
  simp only [encTensor, List.append_assoc, decTensor, h1, h2, h, if_true]

/-- State-dict-entry round trip. -/
theorem decEntry_encEntry (e : String × Tensor) (h : e.2.consistent = true)
    (r : List Nat) : decEntry (encEntry e ++ r) = some (e, r) := by
  simp only [encEntry, List.append_assoc, decEntry, decString_encString,
    decTensor_encTensor e.2 h r]

/-- Record-value round trip. -/
theorem decCValue_encCValue (v : CValue) (h : v.wfVal = true) (r : List Nat) :
    decCValue (encCValue v ++ r) = some (v, r) := by
  match v with
  | .intVal n =>
    simp only [encCValue, List.cons_append, decCValue, decNat_encNat]
    rfl
  | .listVal l =>
    have h1 := decList_encList decNat encNat l (fun a _ r' => decNat_encNat a r') r
    simp only [encCValue, List.cons_append, decCValue, h1]
    rfl
  | .dictVal sd =>
    simp only [CValue.wfVal, List.all_eq_true] at h
    have h1 := decList_encList decEntry encEntry sd
      (fun a ha r' => decEntry_encEntry a (h a ha) r') r
    simp only [encCValue, List.cons_append, decCValue, h1]
    rfl

/-- Record-field round trip. -/
theorem decField_encField (e : String × CValue) (h : e.2.wfVal = true)
    (r : List Nat) : decField (encField e ++ r) = some (e, r) := by
  simp only [encField, List.append_assoc, decField, decString_encString,
    decCValue_encCValue e.2 h r]

/-- Top-level record round trip. -/
theorem decRecord_encRecord (fields : List (String × CValue))
    (h : ∀ e ∈ fields, e.2.wfVal = true) (r : List Nat) :
    decRecord (encRecord fields ++ r) = some (fields, r) :=
  decList_encList decField encField fields
    (fun e he r' => decField_encField e (h e he) r') r

/-! ### Validity bridge lemmas -/

/-- Unpacking of the three conjuncts of `validPair`. -/
theorem validPair_parts (d : ArchitectureDescriptor) (sd : StateDict)
    (hv : validPair d sd = true) :
    sd.map Prod.fst = (expectedShapes d).map Prod.fst ∧
    (∀ e ∈ sd.zip (expectedShapes d),
      e.1.2.shape = e.2.2 ∧ e.1.2.consistent = true) ∧
    (∀ ks ∈ expectedShapes d, ∃ t, findTensor sd ks.1 = some t ∧ t.shape = ks.2) := by
  simp only [validPair, Bool.and_eq_true, beq_iff_eq, List.all_eq_true] at hv
  obtain ⟨⟨h1, h2⟩, h3⟩ := hv
  refine ⟨h1, ?_, ?_⟩
  · intro e he
    have h := h2 e he
    simp only [Bool.and_eq_true, beq_iff_eq] at h
    exact h
  · intro ks hks
    have h := h3 ks hks
    cases hf : findTensor sd ks.1 with
    | none => rw [hf] at h; simp at h
    | some t =>
      rw [hf] at h
      simp only [beq_iff_eq] at h
      exact ⟨t, rfl, h⟩

/-- Complete bundles have no missing key. -/
theorem missingKey_eq_none_of_valid (d : ArchitectureDescriptor) (sd : StateDict)
    (hv : validPair d sd = true) : missingKey d sd = none := by
  obtain ⟨-, -, h3⟩ := validPair_parts d sd hv
  rw [missingKey, List.findSome?_eq_none_iff]
  intro ks hks
  obtain ⟨t, hf, -⟩ := h3 ks hks
  simp [hf]

/-- Well-shaped bundles have no shape problem. -/
theorem shapeProblem_eq_none_of_valid (d : ArchitectureDescriptor) (sd : StateDict)
    (hv : validPair d sd = true) : shapeProblem d sd = none := by
  obtain ⟨-, -, h3⟩ := validPair_parts d sd hv
  rw [shapeProblem, List.findSome?_eq_none_iff]
  intro ks hks
  obtain ⟨t, hf, hsh⟩ := h3 ks hks
  simp [hf, hsh]

/-- Value of `serialize` on a valid pair. -/
theorem serialize_eq_of_valid (d : ArchitectureDescriptor) (sd : StateDict)
    (hv : validPair d sd = true) :
    serialize d sd = .ok (formatVersion ::
      encNat (encRecord (checkpointRecord d sd)).length ++
      encRecord (checkpointRecord d sd)) := by
  rw [serialize, missingKey_eq_none_of_valid d sd hv,
    shapeProblem_eq_none_of_valid d sd hv]

/-- Valid bundles pass the decoder-side well-formedness check. -/
theorem bundleOk_of_valid (d : ArchitectureDescriptor) (sd : StateDict)
    (hv : validPair d sd = true) : bundleOk d sd = true := by
  obtain ⟨h1, h2, -⟩ := validPair_parts d sd hv
  simp only [bundleOk, Bool.and_eq_true, beq_iff_eq, List.all_eq_true]
  exact ⟨h1, fun e he => by simp [(h2 e he).1]⟩

/-- Pointwise facts about zipped lists transfer to the left list when it is
no longer than the right one. -/
theorem zip_all_left {α β : Type} (P : α → Prop) :
    ∀ (xs : List α) (ys : List β), xs.length ≤ ys.length →
      (∀ e ∈ xs.zip ys, P e.1) → ∀ x ∈ xs, P x := by
  intro xs
  induction xs with
  | nil => intro ys h hall x hx; simp at hx
  | cons a as ih =>
    intro ys h hall x hx
    cases ys with
    | nil => simp at h
    | cons b bs =>
      rcases List.mem_cons.mp hx with rfl | hx'
      · exact hall (x, b) (by simp [List.zip_cons_cons])
      · exact ih bs (by simpa using h)
          (fun e he => hall e (by simp [List.zip_cons_cons, he])) x hx'

/-- Every tensor of a valid bundle is internally consistent. -/
theorem consistent_of_valid (d : ArchitectureDescriptor) (sd : StateDict)
    (hv : validPair d sd = true) : ∀ e ∈ sd, e.2.consistent = true := by
  obtain ⟨h1, h2, -⟩ := validPair_parts d sd hv
  have hlen : sd.length ≤ (expectedShapes d).length := by
    have h := congrArg List.length h1
    simp only [List.length_map] at h
    omega
  exact zip_all_left (fun e => e.2.consistent = true) sd (expectedShapes d)
    hlen (fun e he => (h2 e he).2)

/-- Every field of the checkpoint record of a valid pair is well formed. -/
theorem checkpointRecord_wf (d : ArchitectureDescriptor) (sd : StateDict)
    (hv : validPair d sd = true) :
    ∀ e ∈ checkpointRecord d sd, CValue.wfVal e.2 = true := by
  have hc := consistent_of_valid d sd hv
  intro e he
  simp only [checkpointRecord, List.mem_cons, List.not_mem_nil, or_false] at he
  rcases he with rfl | rfl | rfl | rfl
  · rfl
  · rfl
  · rfl
  · simp only [CValue.wfVal, List.all_eq_true]
    exact fun e' he' => hc e' he'

/-- Extraction recovers the pair the checkpoint record was built from. -/
theorem extractRecord_checkpointRecord (d : ArchitectureDescriptor)
    (sd : StateDict) : extractRecord (checkpointRecord d sd) = some (d, sd) :=
  rfl

/-- Deserialization of the bytes produced by `serialize` on a valid pair
recovers exactly that pair. -/
theorem deserialize_serialize_of_valid (d : ArchitectureDescriptor)
    (sd : StateDict) (hv : validPair d sd = true) :
    deserialize (formatVersion ::
      encNat (encRecord (checkpointRecord d sd)).length ++
      encRecord (checkpointRecord d sd)) = .ok (d, sd) := by
  have hdec := decNat_encNat (encRecord (checkpointRecord d sd)).length
    (encRecord (checkpointRecord d sd))
  have hrec := decRecord_encRecord (checkpointRecord d sd)
    (checkpointRecord_wf d sd hv) []
  rw [List.append_nil] at hrec
  simp [deserialize, hdec, hrec, extractRecord_checkpointRecord,
    bundleOk_of_valid d sd hv]

/-- Shape of every byte stream `serialize` produces: the format version,
the declared payload length, and the encoded checkpoint record. -/
theorem serialize_ok_form (d : ArchitectureDescriptor) (sd : StateDict)
    (bs : List Nat) (hs : serialize d sd = .ok bs) :
    bs = formatVersion ::
      encNat (encRecord (checkpointRecord d sd)).length ++
      encRecord (checkpointRecord d sd) := by
  unfold serialize at hs
  cases h1 : missingKey d sd with
  | some k => rw [h1] at hs; exact absurd hs (by simp)
  | none =>
    rw [h1] at hs
    cases h2 : shapeProblem d sd with
    | some e => rw [h2] at hs; exact absurd hs (by simp)
    | none =>
      rw [h2] at hs
      simp only [Except.ok.injEq] at hs
      exact hs.symm

/-! ### Truncation -/

/-- Core truncation argument on the concrete stream shape: every strict
truncation of `formatVersion :: (ℓdigits :: digits) ++ payload`, where the
digits declare the payload length, is rejected as corrupt. -/
theorem deserialize_take_core (P D : List Nat) (hval : unDigits D = P.length)
    (m : Nat) (hm : m < (formatVersion :: (D.length :: D) ++ P).length) :
    deserialize ((formatVersion :: (D.length :: D) ++ P).take m) =
      .error .CorruptRecord := by
  have hm' : m < 2 + D.length + P.length := by
    simp only [List.length_cons, List.cons_append, List.length_append] at hm
    omega
  match m with
  | 0 => rfl
  | 1 => rfl
  | j + 2 =>
    have htake : (formatVersion :: (D.length :: D) ++ P).take (j + 2)
        = formatVersion :: D.length :: (D ++ P).take j := by
      simp [List.cons_append, List.take_succ_cons]
    rw [htake]
    by_cases hle : D.length ≤ j
    · have htk : (D ++ P).take j = D ++ P.take (j - D.length) := by
        rw [List.take_append_eq_append_take, List.take_of_length_le hle]
      have hlen2 : (P.take (j - D.length)).length ≠ P.length := by
        rw [List.length_take]
        omega
      simp [deserialize, decNat, htk, List.take_left, List.drop_left,
        hval, hlen2, formatVersion]
      intro hcontra
      exfalso
      omega
    · simp [deserialize, decNat, hle, formatVersion]

/-- C7: for every byte stream obtained by truncating a valid serialized
record at any point strictly before its final byte, `deserialize` fails
with a `CorruptRecord` error; it never returns a partially populated
descriptor or bundle. -/
theorem deserialize_take_corrupt_of_serialize (d : ArchitectureDescriptor)
    (sd : StateDict) (bs : List Nat) (m : Nat) (hs : serialize d sd = .ok bs)
    (hm : m < bs.length) :
    deserialize (bs.take m) = .error .CorruptRecord := by
  have hform := serialize_ok_form d sd bs hs
  subst hform
  have hval := unDigits_natDigits (encRecord (checkpointRecord d sd)).length
    (encRecord (checkpointRecord d sd)).length le_rfl
  exact deserialize_take_core (encRecord (checkpointRecord d sd))
    (natDigits (encRecord (checkpointRecord d sd)).length
      (encRecord (checkpointRecord d sd)).length) hval m hm

/-! ### Strict parameter loading -/

/-- When every model parameter has a bundle entry and some bundle entry
disagrees in shape, the first problem found is a shape mismatch between a
genuinely different expected and actual shape. -/
theorem findMismatch_of_shape_clash (params : List (String × Tensor))
    (sd : StateDict)
    (hc : params.all (fun kt => (findTensor sd kt.1).isSome) = true)
    (hm : params.any (fun kt =>
      match findTensor sd kt.1 with
      | some u => u.shape != kt.2.shape
      | none => false) = true) :
    ∃ k e a, findMismatch params sd = some (.ShapeMismatch k e a) ∧ e ≠ a := by
  induction params with
  | nil => simp at hm
  | cons p ps ih =>
    obtain ⟨k, t⟩ := p
    simp only [List.all_cons, Bool.and_eq_true] at hc
    cases hf : findTensor sd k with
    | none =>
      have h := hc.1
      rw [hf] at h
      simp at h
    | some u =>
      by_cases hsh : u.shape = t.shape
      · have hm' : ps.any (fun kt =>
            match findTensor sd kt.1 with
            | some u => u.shape != kt.2.shape
            | none => false) = true := by
          simp only [List.any_cons, Bool.or_eq_true] at hm
          rcases hm with hh | ht
          · rw [hf] at hh; simp [hsh] at hh
          · exact ht
        obtain ⟨k', e', a', hfm, hne⟩ := ih hc.2 hm'
        refine ⟨k', e', a', ?_, hne⟩
        simp only [findMismatch, hf, hsh]
        simpa using hfm
      · refine ⟨k, t.shape, u.shape, ?_, fun hcontra => hsh hcontra.symm⟩
        simp [findMismatch, hf, hsh]

/-! ### Removing a required entry -/

/-- The removed key no longer resolves. -/
theorem findTensor_removeKey_self (sd : StateDict) (k : String) :
    findTensor (removeKey sd k) k = none := by
  induction sd with
  | nil => rfl
  | cons e es ih =>
    by_cases he : e.1 = k
    · have h1 : removeKey (e :: es) k = removeKey es k := by
        simp [removeKey, List.filter_cons, he]
      rw [h1]
      exact ih
    · have h1 : removeKey (e :: es) k = e :: removeKey es k := by
        simp [removeKey, List.filter_cons, he]
      have hq : ¬ ((e.1 == k) = true) := by simpa using he
      rw [h1]
      show ((e :: removeKey es k).find? fun x => x.1 == k).map Prod.snd = none
      rw [List.find?_cons_of_neg (p := fun x : String × Tensor => x.1 == k) _ hq]
      exact ih

/-- Other keys resolve as before the removal. -/
theorem findTensor_removeKey_ne (sd : StateDict) (k q : String) (h : q ≠ k) :
    findTensor (removeKey sd k) q = findTensor sd q := by
  induction sd with
  | nil => rfl
  | cons e es ih =>
    by_cases he : e.1 = k
    · have hq : ¬ ((e.1 == q) = true) := by
        simp only [beq_iff_eq]
        intro hcontra
        exact h (by rw [← hcontra, he])
      have h1 : removeKey (e :: es) k = removeKey es k := by
        simp [removeKey, List.filter_cons, he]
      rw [h1, ih]
      show findTensor es q = ((e :: es).find? fun x => x.1 == q).map Prod.snd
      rw [List.find?_cons_of_neg (p := fun x : String × Tensor => x.1 == q) _ hq]
      rfl
    · have h1 : removeKey (e :: es) k = e :: removeKey es k := by
        simp [removeKey, List.filter_cons, he]
      rw [h1]
      by_cases hq : (e.1 == q) = true
      · show ((e :: removeKey es k).find? fun x => x.1 == q).map Prod.snd =
          ((e :: es).find? fun x => x.1 == q).map Prod.snd
        rw [List.find?_cons_of_pos (p := fun x : String × Tensor => x.1 == q) _ hq,
          List.find?_cons_of_pos (p := fun x : String × Tensor => x.1 == q) _ hq]
      · show ((e :: removeKey es k).find? fun x => x.1 == q).map Prod.snd =
          ((e :: es).find? fun x => x.1 == q).map Prod.snd
        rw [List.find?_cons_of_neg (p := fun x : String × Tensor => x.1 == q) _ hq,
          List.find?_cons_of_neg (p := fun x : String × Tensor => x.1 == q) _ hq]
        exact ih

/-- Scanning the implied entries reports the removed key as the first
missing one when every other implied key is still present. -/
theorem findSome_missing (sd' : StateDict) (k : String) :
    ∀ (l : List (String × List Nat)), k ∈ l.map Prod.fst →
      findTensor sd' k = none →
      (∀ e ∈ l, e.1 ≠ k → (findTensor sd' e.1).isSome = true) →
      (l.findSome? fun ks =>
        if (findTensor sd' ks.1).isNone then some ks.1 else none) = some k := by
  intro l
  induction l with
  | nil => intro hk; simp at hk
  | cons e es ih =>
    intro hk habs hpres
    by_cases he : e.1 = k
    · subst he
      simp [List.findSome?_cons, habs]
    · have hp := hpres e (by simp) he
      have hpnone : (findTensor sd' e.1).isNone = false := by
        cases hfe : findTensor sd' e.1 with
        | none => rw [hfe] at hp; simp at hp
        | some t => rfl
      have hk' : k ∈ es.map Prod.fst := by
        simp only [List.map_cons, List.mem_cons] at hk
        rcases hk with hcontra | hk'
        · exact absurd hcontra.symm he
        · exact hk'
      rw [List.findSome?_cons]
      rw [hpnone]
      simp only [Bool.false_eq_true, if_false]
      exact ih hk' habs (fun e' he' hne => hpres e' (by simp [he']) hne)

/-- C6: for every descriptor and every parameter bundle from which any
single required layer's weight or bias array is absent, `serialize` fails
with an `IncompleteBundle` error and does not produce a persisted record. -/
theorem serialize_removeKey (d : ArchitectureDescriptor) (sd : StateDict)
    (k : String) (hv : validPair d sd = true)
    (hk : k ∈ (expectedShapes d).map Prod.fst) :
    serialize d (removeKey sd k) = .error (.IncompleteBundle k) := by
  obtain ⟨-, -, h3⟩ := validPair_parts d sd hv
  have habs : findTensor (removeKey sd k) k = none :=
    findTensor_removeKey_self sd k
  have hpres : ∀ e ∈ expectedShapes d, e.1 ≠ k →
      (findTensor (removeKey sd k) e.1).isSome = true := by
    intro e he hne
    obtain ⟨t, hf, -⟩ := h3 e he
    rw [findTensor_removeKey_ne sd k e.1 hne, hf]
    rfl
  have hmk : missingKey d (removeKey sd k) = some k :=
    findSome_missing (removeKey sd k) k (expectedShapes d) hk habs hpres
  rw [serialize, hmk]

/-! ### Claim theorems -/

/-- C1: for every valid (descriptor, parameters) pair satisfying the Data
Model invariants, deserializing the bytes produced by `serialize` on that
pair yields a descriptor equal to the original descriptor and a parameter
bundle equal to the original parameters, with the bundle's key set and key
order preserved (the bundle is recovered exactly, keys, order and all). -/
theorem serialize_deserialize_id (d : ArchitectureDescriptor)
    (sd : StateDict) (hv : validPair d sd = true) :
    ∃ bs, serialize d sd = .ok bs ∧ deserialize bs = .ok (d, sd) :=
  ⟨_, serialize_eq_of_valid d sd hv, deserialize_serialize_of_valid d sd hv⟩

/-- C2: for every model handle whose parameters all have an entry in the
bundle, if some bundle array's shape disagrees with the shape of the
model's corresponding allocated parameter, then `apply_parameters` fails
with a `ShapeMismatch` error (between genuinely different shapes) rather
than succeeding. -/
theorem apply_parameters_rejects_mismatch (m : Network) (sd : StateDict)
    (hc : m.params.all (fun kt => (findTensor sd kt.1).isSome) = true)
    (hm : m.params.any (fun kt =>
      match findTensor sd kt.1 with
      | some u => u.shape != kt.2.shape
      | none => false) = true) :
    ∃ k e a, (apply_parameters m sd).1 = .error (.ShapeMismatch k e a) ∧
      e ≠ a := by
  obtain ⟨k, e, a, hfm, hne⟩ := findMismatch_of_shape_clash m.params sd hc hm
  exact ⟨k, e, a, by simp [apply_parameters, hfm], hne⟩

/-- C3: whenever `apply_parameters` fails, for any reason and at any layer,
the target model is returned unchanged: no parameter array is partially or
fully overwritten on the error path. -/
theorem apply_parameters_error_frame (m : Network) (sd : StateDict)
    (e : CodecError) (h : (apply_parameters m sd).1 = .error e) :
    (apply_parameters m sd).2 = m := by
  unfold apply_parameters at h ⊢
  cases hf : findMismatch m.params sd with
  | none => rw [hf] at h; simp at h
  | some e' => rfl

/-- C4: reconstruction is two ordered phases: the model instance is built
by `instantiate` from the three descriptor fields alone, with fresh
zero-filled parameter storage and no parameter data, and `load_checkpoint`
is exactly that instantiation followed by `apply_parameters` of the
record's bundle into it; no other model object enters the computation. -/
theorem load_checkpoint_two_phase (bs : List Nat)
    (d : ArchitectureDescriptor) (sd : StateDict)
    (h : deserialize bs = .ok (d, sd)) :
    instantiate d = ⟨d.input_size, d.output_size, d.hidden_layers,
      (expectedShapes d).map fun ks => (ks.1, Tensor.zeros ks.2)⟩ ∧
    load_checkpoint bs =
      (match apply_parameters (instantiate d) sd with
       | (.error e, _) => .error e
       | (.ok _, m) => .ok m) := by
  refine ⟨rfl, ?_⟩
  rw [load_checkpoint, h]

/-- C5: every persisted checkpoint is the format version followed by the
declared payload length and a payload that parses to a top-level mapping
with exactly the keys `input_size` (an integer), `output_size` (an
integer), `hidden_layers` (the front-to-back sequence of hidden layer
output widths) and `state_dict` (the mapping from layer-parameter key to
numeric array), and nothing else. -/
theorem persisted_record_layout (d : ArchitectureDescriptor)
    (sd : StateDict) (bs : List Nat) (hv : validPair d sd = true)
    (hs : serialize d sd = .ok bs) :
    ∃ payload,
      bs = formatVersion :: encNat payload.length ++ payload ∧
      decRecord payload = some ([("input_size", .intVal d.input_size),
        ("output_size", .intVal d.output_size),
        ("hidden_layers", .listVal d.hidden_layers),
        ("state_dict", .dictVal sd)], []) ∧
      (hiddenDims d).map Prod.snd = d.hidden_layers := by
  refine ⟨encRecord (checkpointRecord d sd), serialize_ok_form d sd bs hs, ?_, ?_⟩
  · have hrec := decRecord_encRecord (checkpointRecord d sd)
      (checkpointRecord_wf d sd hv) []
    rw [List.append_nil] at hrec
    exact hrec
  · exact List.map_snd_zip _ _ (by simp)

/-- C8: every serialized record declares the format version as its first
byte, and every byte stream declaring a format version the codec does not
support is rejected with `VersionMismatch` before any decoding of the
record is attempted. -/
theorem version_declared_and_gated (d : ArchitectureDescriptor)
    (sd : StateDict) (bs : List Nat) (hs : serialize d sd = .ok bs) :
    (∃ rest, bs = formatVersion :: rest) ∧
    (∀ v r, v ≠ formatVersion →
      deserialize (v :: r) = .error .VersionMismatch) := by
  refine ⟨⟨_, serialize_ok_form d sd bs hs⟩, ?_⟩
  intro v r hv
  simp [deserialize, hv]

/-- C9: descriptors with an empty hidden-width sequence (a direct
input-to-output network) serialize and deserialize correctly as a valid,
degenerate case, and instantiation from such a descriptor yields a model
whose only parameters are the output layer's weight and bias. -/
theorem empty_hidden_roundtrip (i o : Nat) (sd : StateDict)
    (hv : validPair ⟨i, o, []⟩ sd = true) :
    ∃ bs, serialize ⟨i, o, []⟩ sd = .ok bs ∧
      deserialize bs = .ok (⟨i, o, []⟩, sd) ∧
      (instantiate ⟨i, o, []⟩).params.map Prod.fst =
        ["output.weight", "output.bias"] :=
  ⟨_, serialize_eq_of_valid ⟨i, o, []⟩ sd hv,
    deserialize_serialize_of_valid ⟨i, o, []⟩ sd hv, rfl⟩

/-- C10: running `load_checkpoint` against an environment with a readable
checkpoint file leaves the whole environment (its files and its global
model variable) unchanged, and its result is a function of the file's
contents alone: any environment holding the same bytes under the name
yields the same result, namely `load_checkpoint` of those bytes. -/
theorem load_checkpoint_env_frame (env env' : Env) (fp : String)
    (bs : List Nat) (h : readStoredFile env fp = some bs)
    (h' : readStoredFile env' fp = some bs) :
    (load_checkpoint_env env fp).2 = env ∧
    (load_checkpoint_env env fp).1 = load_checkpoint bs ∧
    (load_checkpoint_env env fp).1 = (load_checkpoint_env env' fp).1 := by
  refine ⟨?_, ?_, ?_⟩ <;> simp [load_checkpoint_env, h, h']

/-! ### Witnesses -/

/-- Witness of C1 at the concrete valid pair `(dEx, sdEx)`. -/
theorem serialize_deserialize_id_witness :
    validPair dEx sdEx = true ∧
    ∃ bs, serialize dEx sdEx = .ok bs ∧ deserialize bs = .ok (dEx, sdEx) :=
  ⟨by decide, serialize_deserialize_id dEx sdEx (by decide)⟩

/-- Witness of C2: loading the wide bundle into the narrow model. -/
theorem apply_parameters_rejects_mismatch_witness :
    ((instantiate dEx).params.all fun kt =>
      (findTensor sdClash kt.1).isSome) = true ∧
    ∃ k e a, (apply_parameters (instantiate dEx) sdClash).1 =
      .error (.ShapeMismatch k e a) ∧ e ≠ a :=
  ⟨by decide, apply_parameters_rejects_mismatch (instantiate dEx) sdClash
    (by decide) (by decide)⟩

/-- Witness of C3: the failed load leaves the model unchanged. -/
theorem apply_parameters_error_frame_witness :
    (apply_parameters (instantiate dEx) sdClash).1 =
      .error (.ShapeMismatch "hidden_layers.0.weight" [2, 2] [3, 2]) ∧
    (apply_parameters (instantiate dEx) sdClash).2 = instantiate dEx :=
  ⟨by decide, apply_parameters_error_frame (instantiate dEx) sdClash
    (.ShapeMismatch "hidden_layers.0.weight" [2, 2] [3, 2]) (by decide)⟩

/-- Witness of C4 on the concrete serialized bytes. -/
theorem load_checkpoint_two_phase_witness :
    deserialize bsEx = .ok (dEx, sdEx) ∧
    (instantiate dEx = ⟨dEx.input_size, dEx.output_size, dEx.hidden_layers,
        (expectedShapes dEx).map fun ks => (ks.1, Tensor.zeros ks.2)⟩ ∧
      load_checkpoint bsEx =
        (match apply_parameters (instantiate dEx) sdEx with
         | (.error e, _) => .error e
         | (.ok _, m) => .ok m)) :=
  ⟨by decide, load_checkpoint_two_phase bsEx dEx sdEx (by decide)⟩

/-- Witness of C5 on the concrete serialized bytes. -/
theorem persisted_record_layout_witness :
    validPair dEx sdEx = true ∧ serialize dEx sdEx = .ok bsEx ∧
    ∃ payload,
      bsEx = formatVersion :: encNat payload.length ++ payload ∧
      decRecord payload = some ([("input_size", .intVal dEx.input_size),
        ("output_size", .intVal dEx.output_size),
        ("hidden_layers", .listVal dEx.hidden_layers),
        ("state_dict", .dictVal sdEx)], []) ∧
      (hiddenDims dEx).map Prod.snd = dEx.hidden_layers :=
  ⟨by decide, by decide,
   persisted_record_layout dEx sdEx bsEx (by decide) (by decide)⟩

/-- Witness of C6: removing the first bias entry. -/
theorem serialize_removeKey_witness :
    validPair dEx sdEx = true ∧
    "hidden_layers.0.bias" ∈ (expectedShapes dEx).map Prod.fst ∧
    serialize dEx (removeKey sdEx "hidden_layers.0.bias") =
      .error (.IncompleteBundle "hidden_layers.0.bias") :=
  ⟨by decide, by decide,
   serialize_removeKey dEx sdEx "hidden_layers.0.bias" (by decide) (by decide)⟩

/-- Witness of C7: truncating the concrete stream after five bytes. -/
theorem deserialize_take_corrupt_witness :
    serialize dEx sdEx = .ok bsEx ∧ 5 < bsEx.length ∧
    deserialize (bsEx.take 5) = .error .CorruptRecord :=
  ⟨by decide, by decide,
   deserialize_take_corrupt_of_serialize dEx sdEx bsEx 5 (by decide) (by decide)⟩

/-- Witness of C8: version byte 7 is rejected. -/
theorem version_declared_and_gated_witness :
    serialize dEx sdEx = .ok bsEx ∧
    (∃ rest, bsEx = formatVersion :: rest) ∧
    deserialize (7 :: bsEx) = .error .VersionMismatch :=
  ⟨by decide,
   (version_declared_and_gated dEx sdEx bsEx (by decide)).1,
   (version_declared_and_gated dEx sdEx bsEx (by decide)).2 7 bsEx (by decide)⟩

/-- Witness of C9 on the zero-hidden-layer descriptor. -/
theorem empty_hidden_roundtrip_witness :
    validPair ⟨3, 2, []⟩ sdEmp = true ∧
    ∃ bs, serialize ⟨3, 2, []⟩ sdEmp = .ok bs ∧
      deserialize bs = .ok (⟨3, 2, []⟩, sdEmp) ∧
      (instantiate ⟨3, 2, []⟩).params.map Prod.fst =
        ["output.weight", "output.bias"] :=
  ⟨by decide, empty_hidden_roundtrip 3 2 sdEmp (by decide)⟩

/-- Witness of C10: two environments holding the same checkpoint bytes. -/
theorem load_checkpoint_env_frame_witness :
    readStoredFile envEx "checkpoint.pth" = some bsEx ∧
    readStoredFile envEx2 "checkpoint.pth" = some bsEx ∧
    (load_checkpoint_env envEx "checkpoint.pth").2 = envEx ∧
    (load_checkpoint_env envEx "checkpoint.pth").1 = load_checkpoint bsEx ∧
    (load_checkpoint_env envEx "checkpoint.pth").1 =
      (load_checkpoint_env envEx2 "checkpoint.pth").1 :=
  ⟨by decide, by decide,
   (load_checkpoint_env_frame envEx envEx2 "checkpoint.pth" bsEx
     (by decide) (by decide)).1,
   (load_checkpoint_env_frame envEx envEx2 "checkpoint.pth" bsEx
     (by decide) (by decide)).2.1,
   (load_checkpoint_env_frame envEx envEx2 "checkpoint.pth" bsEx
     (by decide) (by decide)).2.2⟩

end Checkpoint
